import Mathlib

/-!
Verification of the Tahoe-LAFS storage-server core against its
specification.  The storage-server implementation modules
(`allmydata.storage.server`, `.mutable`, `.expirer`, `.crawler`,
`allmydata.scripts.admin`, `allmydata.node`) are not part of the source
tree; only their interface declarations (`interfaces.py`), their tests
(`test_storage_web.py`, `test_node.py`) and one CLI script are.  The
definitions below therefore embed the missing operations from the
specification's own description of the algorithms (marked
"Modelled from the spec:"), except where the present tests pin down the
behaviour directly, in which case the tests are the authority.
-/

namespace Tahoe

/-- Seconds in one day. -/
def DAY : Int := 24 * 60 * 60

/-- Seconds in 31 days, the default lease duration (`now + 31 days`). -/
def DAY31 : Int := 31 * DAY

/-- A lease record: `(owner_num, renew_secret, cancel_secret,
expiration_time)`; `expiration_time` is absolute seconds-since-epoch. -/
structure LeaseInfo where
  ownerNum : Nat
  renewSecret : Nat
  cancelSecret : Nat
  expirationTime : Int
deriving DecidableEq, Repr

/-- The two kinds of share containers. -/
inductive ShareType
  | immutable
  | mutable
deriving DecidableEq, Repr

/-! ## Mutable slot: `slot_testv_and_readv_and_writev` (C1)

Modelled from the spec: the mutable test-read-and-write transaction of
§4.E, whose implementation (`allmydata.storage.server` /
`allmydata.storage.mutable`) is absent from the tree; the algorithm
follows spec steps 2-6 and the `interfaces.py` docstring. -/

/-- Read `len` bytes at offset `off`; reads past end-of-data are
truncated (produce `b""`). -/
def readData (data : List Nat) (off len : Nat) : List Nat :=
  (data.drop off).take len

/-- Lexicographic byte-string comparison (Python `bytes` ordering),
used by the historical `lt` / `le` test operators. -/
def bytesLt : List Nat → List Nat → Bool
  | [], [] => false
  | [], _ :: _ => true
  | _ :: _, [] => false
  | a :: as, b :: bs =>
      if a < b then true else if b < a then false else bytesLt as bs

/-- Test-vector operators: `eq` is the one required to be honoured;
`lt` and `le` are the historical write-if-newer operators named in the
`interfaces.py` docstring. -/
inductive TestOp
  | eq
  | lt
  | le
deriving DecidableEq, Repr

/-- `bool( read(offset, length) OPERATOR specimen )`. -/
def evalTestOp : TestOp → List Nat → List Nat → Bool
  | .eq, a, b => a == b
  | .lt, a, b => bytesLt a b
  | .le, a, b => bytesLt a b || a == b

/-- One element of a test vector: `(offset, length, operator, specimen)`. -/
structure TestV where
  offset : Nat
  length : Nat
  op : TestOp
  specimen : List Nat
deriving DecidableEq, Repr

/-- Evaluate one test element against the current share bytes. -/
def testMatches (data : List Nat) (t : TestV) : Bool :=
  evalTestOp t.op (readData data t.offset t.length) t.specimen

/-- Extend `data` with zero bytes up to length `n` (no-op if already
that long): implicit holes are zero-filled. -/
def zeroFillTo (data : List Nat) (n : Nat) : List Nat :=
  data ++ List.replicate (n - data.length) 0

/-- Apply a single write vector `(offset, data)`: zero-fill any hole
between end-of-data and `offset`, then overwrite in place, expanding
the share if necessary. -/
def applyWrite (data : List Nat) (off : Nat) (wd : List Nat) : List Nat :=
  let d := zeroFillTo data off
  d.take off ++ wd ++ d.drop (off + wd.length)

/-- Apply the write vectors of one share in submitted order. -/
def applyWrites (data : List Nat) (wv : List (Nat × List Nat)) : List Nat :=
  wv.foldl (fun d ow => applyWrite d ow.1 ow.2) data

/-- A mutable slot: association of share number to data bytes.  Shares
absent from the list behave like empty ones. -/
abbrev Slot : Type := List (Nat × List Nat)

/-- Data of share `shnum` if it exists on disk. -/
def lookupShare (slot : Slot) (shnum : Nat) : Option (List Nat) :=
  ((List.find? (fun p => p.1 == shnum)) slot).map Prod.snd

/-- Data of share `shnum`, an empty share when it does not exist. -/
def shareData (slot : Slot) (shnum : Nat) : List Nat :=
  (lookupShare slot shnum).getD []

/-- The per-share entry of `tw_vectors`:
`(test_vector, write_vector, new_length_or_none)`. -/
structure TWV where
  testv : List TestV
  writev : List (Nat × List Nat)
  newLength : Option Nat
deriving Repr

/-- Apply one share's write vector and `new_length`:
`new_length == 0` deletes the share, a smaller `new_length` truncates,
a larger one is ignored. -/
def applyShareWrite (dataOpt : Option (List Nat)) (w : TWV) :
    Option (List Nat) :=
  let d1 := applyWrites (dataOpt.getD []) w.writev
  match w.newLength with
  | some 0 => none
  | some n => if n < d1.length then some (d1.take n) else some d1
  | none => some d1

/-- Store `r` as the new state of share `sh` (`none` deletes it). -/
def updateSlot (slot : Slot) (sh : Nat) (r : Option (List Nat)) : Slot :=
  match r with
  | none => List.filter (fun p => p.1 != sh) slot
  | some d =>
      if ((List.find? (fun p => p.1 == sh)) slot).isSome then
        slot.map (fun p => if p.1 == sh then (sh, d) else p)
      else slot ++ [(sh, d)]

/-- Read results: the `r_vector` applied to every known share of the
slot, before any writes. -/
def slotReads (slot : Slot) (rv : List (Nat × Nat)) :
    List (Nat × List (List Nat)) :=
  slot.map (fun p => (p.1, rv.map (fun ol => readData p.2 ol.1 ol.2)))

/-- All tests across all shares of `tw_vectors` pass (a share targeted
by `tw_vectors` but not on disk is tested against the implicit empty
share). -/
def testsPass (slot : Slot) (tw : List (Nat × TWV)) : Bool :=
  tw.all (fun sv => sv.2.testv.all (fun t => testMatches (shareData slot sv.1) t))

/-- Modelled from the spec: `slot_testv_and_readv_and_writev` (§4.E
steps 2-6; the implementing module is missing from the tree).  Reads are
taken from the pre-state; if all tests across all shares pass the write
vectors are applied (creating, truncating or deleting shares), else
`(False, read_results)` is returned with no writes applied. -/
def slot_testv_and_readv_and_writev (slot : Slot) (tw : List (Nat × TWV))
    (rv : List (Nat × Nat)) : Bool × List (Nat × List (List Nat)) × Slot :=
  let reads := slotReads slot rv
  if testsPass slot tw then
    let slot' := tw.foldl
      (fun s sv => updateSlot s sv.1 (applyShareWrite (lookupShare s sv.1) sv.2))
      slot
    (true, reads, slot')
  else
    (false, reads, slot)

/-! ## Immutable allocation: `allocate_buckets` (C2)

Modelled from the spec: §4.E `allocate_buckets` and the §4.D conflict
rule (the implementing `allmydata.storage.server` is missing from the
tree).  Admission is all-or-nothing: read-only storage, or a request
whose `allocated_size × len(shnums)` would drop free space below the
reserved floor, allocates nothing; `already_have` is always returned. -/

/-- The allocation-relevant state of one storage index on a server:
which share numbers are finalized, which are held by an in-progress
writer, plus the server's read-only flag and disk accounting. -/
structure AllocState where
  finalized : List Nat
  inProgress : List Nat
  readonlyStorage : Bool
  freeForNonroot : Int
  reservedSpace : Int
deriving Repr

/-- `available = free_for_nonroot(basedir) − reserved_space` (§4.F). -/
def availSpace (st : AllocState) : Int :=
  st.freeForNonroot - st.reservedSpace

/-- Requested shnums whose finalized share already exists. -/
def alreadyHaveShares (st : AllocState) (shnums : List Nat) : List Nat :=
  shnums.filter (fun s => st.finalized.contains s)

/-- Requested shnums not yet held at all (neither finalized nor
in-progress): the candidates for new bucket writers. -/
def newCandidates (st : AllocState) (shnums : List Nat) : List Nat :=
  shnums.filter (fun s => !st.finalized.contains s && !st.inProgress.contains s)

/-- The admission test: writes accepted and the whole request fits
above the reserved floor. -/
def allocAdmitted (st : AllocState) (shnums : List Nat)
    (allocatedSize : Int) : Bool :=
  !st.readonlyStorage && decide (allocatedSize * shnums.length ≤ availSpace st)

/-- Modelled from the spec: `allocate_buckets` returns
`(already_have, allocated)`; new shares are granted all-or-nothing. -/
def allocate_buckets (st : AllocState) (shnums : List Nat)
    (allocatedSize : Int) : List Nat × List Nat :=
  (alreadyHaveShares st shnums,
   if allocAdmitted st shnums allocatedSize then newCandidates st shnums
   else [])

/-! ## Lease bookkeeping: `add_lease` (C4)

Modelled from the spec: §4.E `add_lease` (the implementing
`allmydata.storage.server` / share-file classes are missing from the
tree). -/

/-- One share file on disk: its container type, its file size, the
`st_blocks` field of its stat result when the platform provides one,
and its lease table. -/
structure ShareF where
  stype : ShareType
  size : Nat
  blocks : Option Nat
  leases : List LeaseInfo
deriving DecidableEq, Repr

/-- Whether the share holds a lease with the given renew secret. -/
def hasLease (sf : ShareF) (rs : Nat) : Bool :=
  sf.leases.any (fun l => l.renewSecret == rs)

/-- Renew-or-append on one lease table: an existing lease with an equal
renew secret has its expiration updated in place to `now + 31 days`;
otherwise a fresh record is appended. -/
def add_or_renew_lease (now : Int) (rs cs : Nat) (leases : List LeaseInfo) :
    List LeaseInfo :=
  if leases.any (fun l => l.renewSecret == rs) then
    leases.map (fun l =>
      if l.renewSecret == rs then { l with expirationTime := now + DAY31 }
      else l)
  else leases ++ [⟨0, rs, cs, now + DAY31⟩]

/-- On-disk size of one lease record. -/
def leaseRecordSize : Nat := 72

/-- Modelled from the spec: `add_lease(SI, renew_secret, cancel_secret)`
applied to the shares of one storage index.  Every existing share gets
its lease renewed in place or a new record appended; an SI with no
shares is a silent no-op; `NoSpace` is raised (and nothing changed) only
if appending a lease record would violate the reserved floor — so only
when at least one record must be appended, since appending zero records
cannot violate the floor. -/
def add_lease (now : Int) (rs cs : Nat) (avail : Int)
    (shares : List (Nat × ShareF)) : Except String (List (Nat × ShareF)) :=
  if decide (0 < (shares.filter (fun p => !hasLease p.2 rs)).length) &&
      decide
        ((((shares.filter (fun p => !hasLease p.2 rs)).length
            * leaseRecordSize : Nat) : Int) > avail) then
    Except.error "NoSpace"
  else
    Except.ok (shares.map (fun p =>
      (p.1, { p.2 with leases := add_or_renew_lease now rs cs p.2.leases })))

/-! ## Lease expirer (C3, C7, C10)

Modelled from the spec: §4.H (the implementing
`allmydata.storage.expirer` is missing from the tree). -/

/-- The expiration policy: `age` with an override duration, or an
absolute `cutoff-date`. -/
inductive ExpirationMode
  | age (overrideDuration : Int)
  | cutoffDate (cutoff : Int)
deriving DecidableEq, Repr

/-- The instant a lease was last created or renewed: its expiration
time minus the default 31-day duration. -/
def leaseRenewalTime (l : LeaseInfo) : Int :=
  l.expirationTime - DAY31

/-- A lease is expired iff (mode `age`)
`now − (expiration_time − 31 days) ≥ override_duration`, or (mode
`cutoff-date`) its last-renewal instant is before the cutoff. -/
def leaseIsExpired (mode : ExpirationMode) (now : Int) (l : LeaseInfo) : Bool :=
  match mode with
  | .age d => decide (now - leaseRenewalTime l ≥ d)
  | .cutoffDate c => decide (leaseRenewalTime l < c)

/-- The lease-expirer configuration (fixed for the server's life). -/
structure ExpirerConfig where
  enabled : Bool
  mode : ExpirationMode
  sharetypes : List ShareType
deriving Repr

/-- Modelled from the spec: one expirer visit to one share file.  Only
when expiration is enabled and the share's type is configured are
expired lease records removed; a share left with zero leases is deleted
(`none`). -/
def expireShare (cfg : ExpirerConfig) (now : Int) (sf : ShareF) :
    Option ShareF :=
  if cfg.enabled && cfg.sharetypes.contains sf.stype then
    let kept := sf.leases.filter (fun l => !leaseIsExpired cfg.mode now l)
    if kept.isEmpty then none else some { sf with leases := kept }
  else some sf

/-- One full expirer cycle over the shares on disk: shares whose visit
returns `none` are deleted. -/
def expireCycle (cfg : ExpirerConfig) (now : Int) (shares : List ShareF) :
    List ShareF :=
  shares.filterMap (expireShare cfg now)

/-- Disk bytes charged to one share: `st_blocks * 512` when the stat
result carries `st_blocks`, else fall back to the share file size. -/
def shareDiskBytes (sf : ShareF) : Nat :=
  match sf.blocks with
  | some b => b * 512
  | none => sf.size

/-- A share would be removed under a policy iff every one of its leases
is expired under that policy. -/
def shareRemovedUnder (mode : ExpirationMode) (now : Int) (sf : ShareF) : Bool :=
  sf.leases.all (fun l => leaseIsExpired mode now l)

/-- A share is actually removed this cycle iff expiration is enabled,
its type is configured, and all its leases are expired. -/
def shareActuallyRemoved (cfg : ExpirerConfig) (now : Int) (sf : ShareF) : Bool :=
  cfg.enabled && cfg.sharetypes.contains sf.stype
    && shareRemovedUnder cfg.mode now sf

/-- The space-recovered tallies of one cycle: share counts, share-byte
totals and disk-byte totals, each under the actual deletions, the
configured policy (even if disabled), and the default 31-day policy. -/
structure SpaceRecovered where
  actualShares : Nat
  configuredShares : Nat
  originalShares : Nat
  actualSharebytes : Nat
  configuredSharebytes : Nat
  originalSharebytes : Nat
  actualDiskbytes : Nat
  configuredDiskbytes : Nat
  originalDiskbytes : Nat
deriving DecidableEq, Repr

/-- Modelled from the spec: the expirer's end-of-cycle space-recovered
accounting (§4.H step 4). -/
def spaceRecovered (cfg : ExpirerConfig) (now : Int) (shares : List ShareF) :
    SpaceRecovered :=
  let act := shares.filter (shareActuallyRemoved cfg now)
  let conf := shares.filter (shareRemovedUnder cfg.mode now)
  let orig := shares.filter (shareRemovedUnder (.age DAY31) now)
  { actualShares := act.length
    configuredShares := conf.length
    originalShares := orig.length
    actualSharebytes := (act.map ShareF.size).sum
    configuredSharebytes := (conf.map ShareF.size).sum
    originalSharebytes := (orig.map ShareF.size).sum
    actualDiskbytes := (act.map shareDiskBytes).sum
    configuredDiskbytes := (conf.map shareDiskBytes).sum
    originalDiskbytes := (orig.map shareDiskBytes).sum }

/-! ## Crawler state serializer and pickle migration (C5)

Modelled from the spec: §3.5 / §4.I.  The state serializer
(`_LeaseStateSerializer` of `allmydata.storage.crawler`) and the
`migrate-crawler` command (`allmydata.scripts.admin`) are missing from
the tree; the model follows the spec's field list and migration
contract, with the shapes pinned by `test_deserialize_pickle`. -/

/-- A JSON-ish value as persisted by the serializer: null, a number, or
a flat object of numeric fields (standing for `cycle-to-date`). -/
inductive JValue
  | jnull
  | jnum (n : Int)
  | jpairs (xs : List (String × Int))
deriving DecidableEq, Repr

/-- The crawler's persistent state (§3.5): resumption point, cycle
counters and the per-cycle accumulator (kept abstract as named numeric
tallies). -/
structure CrawlerState where
  lastCompletePfx : Option Nat
  currentCycle : Option Nat
  lastCycleFinished : Option Nat
  currentCycleStartTime : Int
  lastCompleteBucket : Option Nat
  cycleToDate : List (String × Int)
deriving DecidableEq, Repr

/-- Encode an optional number. -/
def encOptNat : Option Nat → JValue
  | none => .jnull
  | some n => .jnum n

/-- Serialize to the versioned JSON document (`version` field = 1). -/
def storeState (s : CrawlerState) : List (String × JValue) :=
  [("version", .jnum 1),
   ("last-complete-prefix", encOptNat s.lastCompletePfx),
   ("current-cycle", encOptNat s.currentCycle),
   ("last-cycle-finished", encOptNat s.lastCycleFinished),
   ("current-cycle-start-time", .jnum s.currentCycleStartTime),
   ("last-complete-bucket", encOptNat s.lastCompleteBucket),
   ("cycle-to-date", .jpairs s.cycleToDate)]

/-- Field lookup in a serialized document. -/
def jlookup (doc : List (String × JValue)) (k : String) : Option JValue :=
  ((List.find? (fun p => p.1 == k)) doc).map Prod.snd

/-- Decode a numeric field. -/
def decNum : Option JValue → Option Int
  | some (.jnum n) => some n
  | _ => none

/-- Decode an optional-number field. -/
def decOptNat : Option JValue → Option (Option Nat)
  | some .jnull => some none
  | some (.jnum n) => some (some n.toNat)
  | _ => none

/-- Decode the flat-object field. -/
def decPairs : Option JValue → Option (List (String × Int))
  | some (.jpairs xs) => some xs
  | _ => none

/-- Deserialize a versioned JSON document; fails on a missing field, a
wrongly-typed field or an unknown version. -/
def loadState (doc : List (String × JValue)) : Option CrawlerState :=
  match decNum (jlookup doc "version") with
  | some 1 =>
      match decOptNat (jlookup doc "last-complete-prefix"),
            decOptNat (jlookup doc "current-cycle"),
            decOptNat (jlookup doc "last-cycle-finished"),
            decNum (jlookup doc "current-cycle-start-time"),
            decOptNat (jlookup doc "last-complete-bucket"),
            decPairs (jlookup doc "cycle-to-date") with
      | some a, some b, some c, some t, some d, some e =>
          some ⟨a, b, c, t, d, e⟩
      | _, _, _, _, _, _ => none
  | _ => none

/-- The legacy pickle payload: same state fields, persisted by the
language-specific pickler (so no `version` field). -/
structure PickleState where
  lastCompletePfx : Option Nat
  currentCycle : Option Nat
  lastCycleFinished : Option Nat
  currentCycleStartTime : Int
  lastCompleteBucket : Option Nat
  cycleToDate : List (String × Int)
deriving DecidableEq, Repr

/-- Upgrade the unversioned pickle payload to the current state. -/
def upgradePickle (p : PickleState) : CrawlerState :=
  ⟨p.lastCompletePfx, p.currentCycle, p.lastCycleFinished,
   p.currentCycleStartTime, p.lastCompleteBucket, p.cycleToDate⟩

/-- The crawler-state files of one storage directory: the legacy pickle
file and the versioned JSON sibling. -/
structure CrawlerDir where
  pickleFile : Option PickleState
  jsonFile : Option (List (String × JValue))
deriving Repr

/-- Modelled from the spec: the one-shot `migrate-crawler` command.
When a legacy pickle file exists, its payload is converted and stored as
the versioned JSON sibling and the pickle file is removed; otherwise the
directory is untouched. -/
def migrate_crawler (d : CrawlerDir) : CrawlerDir :=
  match d.pickleFile with
  | some p => { pickleFile := none, jsonFile := some (storeState (upgradePickle p)) }
  | none => d

/-- One load through the state serializer: a pure function of the
on-disk JSON file, so a freshly constructed serializer on the same file
returns the same state. -/
def serializerLoad (d : CrawlerDir) : Option CrawlerState :=
  d.jsonFile.bind loadState

/-! ## Disk-space accounting and admission (C6)

These definitions follow the behaviour pinned by the tests in the tree
(`WebStatus.test_status_no_disk_stats`, `test_status_bad_disk_stats`,
`test_status_right_disk_stats`, `test_readonly`): the missing
`get_disk_stats` / `get_available_space` pair reports `None` when the
platform has no free-space call (and the server then allocates without
a limit), and `0` when the call exists but fails (and the server then
refuses to allocate). -/

/-- Outcome of probing the OS for disk statistics: the figures, or the
platform has no free-space call at all, or the call failed. -/
inductive DiskStatsResult
  | ok (total freeForRoot freeForNonroot : Int)
  | noApi
  | osError
deriving DecidableEq, Repr

/-- `get_available_space`: `max(free_for_nonroot − reserved_space, 0)`
when stats are available, `None` (unknown) when the platform has no
free-space call, `0` when the call fails. -/
def get_available_space (r : DiskStatsResult) (reserved : Int) : Option Int :=
  match r with
  | .ok _ _ freeForNonroot => some (max (freeForNonroot - reserved) 0)
  | .noApi => none
  | .osError => some 0

/-- Whether the status page reports "Accepting new shares: Yes". -/
def accepting_shares (readonly : Bool) (r : DiskStatsResult)
    (reserved : Int) : Bool :=
  if readonly then false
  else
    match get_available_space r reserved with
    | none => true
    | some a => decide (0 < a)

/-- Admission of a space-allocating operation needing `bytesNeeded`
bytes: an unknown free space imposes no limit; otherwise the bytes must
fit in the available space. -/
def space_admits (readonly : Bool) (r : DiskStatsResult) (reserved : Int)
    (bytesNeeded : Int) : Bool :=
  if readonly then false
  else
    match get_available_space r reserved with
    | none => true
    | some a => decide (bytesNeeded ≤ a)

/-! ## Crawler cycle history (C8)

Modelled from the spec: the permanent cycle history, "append to history
(capped at 10 entries)", keeping the most recent entries (the
implementing `allmydata.storage.expirer` is missing from the tree). -/

/-- Append one cycle's summary to the history, then drop the oldest
entries until at most 10 remain. -/
def addHistoryEntry {α : Type} (h : List (Nat × α)) (cycle : Nat)
    (summary : α) : List (Nat × α) :=
  let h' := h ++ [(cycle, summary)]
  if 10 < h'.length then h'.drop (h'.length - 10) else h'

/-- The history after completing cycles `0, 1, …, n-1` (each with a
placeholder summary). -/
def historyAfterCycles (n : Nat) : List (Nat × Unit) :=
  (List.range n).foldl (fun h c => addHistoryEntry h c ()) []

/-! ## Configuration validation (C9)

Modelled from the spec: §4.H expiration-mode validation and the
`tub.port` check of node startup (`allmydata.storage.expirer` and
`allmydata.node._tub_portlocation` are missing from the tree; the error
strings are pinned by `test_bad_mode` and `test_empty_tub_port`). -/

/-- Validation of `expiration_mode` at construction: anything other
than `age` or `cutoff-date` is a fatal `ValueError` and no server is
created. -/
def checkExpirationMode (mode : String) : Except String String :=
  if mode = "age" ∨ mode = "cutoff-date" then Except.ok mode
  else Except.error ("GC mode '" ++ mode ++ "' must be 'age' or 'cutoff-date'")

/-- Validation of the configured `tub.port` at startup: a present but
empty value is a fatal `ValueError`. -/
def checkTubPort (port : Option String) : Except String (Option String) :=
  match port with
  | some p =>
      if p = "" then Except.error "tub.port must not be empty"
      else Except.ok (some p)
  | none => Except.ok none

/-! ## Theorems for the claims -/

/-- C1: a `slot_testv_and_readv_and_writev` call in which at least one
test vector fails on at least one share returns `(False, read_results)`
with no write vectors applied: every share of the storage index is
byte-identical to its pre-call state, and the returned read results
reflect the pre-call contents. -/
theorem slot_tw_failed_test_is_frame_preserving
    (slot : Slot) (tw : List (Nat × TWV)) (rv : List (Nat × Nat))
    (sv : Nat × TWV) (hsv : sv ∈ tw) (t : TestV) (ht : t ∈ sv.2.testv)
    (hfail : testMatches (shareData slot sv.1) t = false) :
    (slot_testv_and_readv_and_writev slot tw rv).1 = false ∧
    (slot_testv_and_readv_and_writev slot tw rv).2.2 = slot ∧
    (slot_testv_and_readv_and_writev slot tw rv).2.1 = slotReads slot rv := by
  have hTP : testsPass slot tw = false := by
    rcases Bool.eq_false_or_eq_true (testsPass slot tw) with h | h
    · exfalso
      unfold testsPass at h
      have hall := List.all_eq_true.mp h sv hsv
      have := List.all_eq_true.mp hall t ht
      rw [hfail] at this
      exact Bool.false_ne_true this
    · exact h
  unfold slot_testv_and_readv_and_writev
  rw [hTP]
  exact ⟨rfl, rfl, rfl⟩

/-- Witness for C1: on a slot holding share 0 = `[1, 2, 3]`, a test
vector expecting `[9, 9, 9]` fails, the call reports failure, leaves
the slot unchanged and returns the pre-call reads. -/
theorem slot_tw_failed_test_is_frame_preserving_witness :
    (slot_testv_and_readv_and_writev [(0, [1, 2, 3])]
        [(0, ⟨[⟨0, 3, TestOp.eq, [9, 9, 9]⟩], [(0, [7, 7])], none⟩)]
        [(0, 2)]).1 = false ∧
    (slot_testv_and_readv_and_writev [(0, [1, 2, 3])]
        [(0, ⟨[⟨0, 3, TestOp.eq, [9, 9, 9]⟩], [(0, [7, 7])], none⟩)]
        [(0, 2)]).2.2 = [(0, [1, 2, 3])] ∧
    (slot_testv_and_readv_and_writev [(0, [1, 2, 3])]
        [(0, ⟨[⟨0, 3, TestOp.eq, [9, 9, 9]⟩], [(0, [7, 7])], none⟩)]
        [(0, 2)]).2.1 = slotReads [(0, [1, 2, 3])] [(0, 2)] :=
  slot_tw_failed_test_is_frame_preserving
    [(0, [1, 2, 3])]
    [(0, ⟨[⟨0, 3, TestOp.eq, [9, 9, 9]⟩], [(0, [7, 7])], none⟩)]
    [(0, 2)]
    (0, ⟨[⟨0, 3, TestOp.eq, [9, 9, 9]⟩], [(0, [7, 7])], none⟩)
    (List.Mem.head _)
    ⟨0, 3, TestOp.eq, [9, 9, 9]⟩
    (List.Mem.head _)
    (by decide)

/-- C2: `allocate_buckets` returns a disjoint `already_have` /
`allocated` pair whose union is contained in the requested shnums;
`already_have` is always returned, allocation of new shares is
all-or-nothing, and a read-only server or a request that would drop
free space below the reserved floor allocates nothing. -/
theorem allocate_buckets_disjoint_all_or_nothing
    (st : AllocState) (shnums : List Nat) (sz : Int) :
    (allocate_buckets st shnums sz).1 = alreadyHaveShares st shnums ∧
    (∀ s ∈ (allocate_buckets st shnums sz).1,
        s ∉ (allocate_buckets st shnums sz).2) ∧
    (∀ s ∈ (allocate_buckets st shnums sz).1, s ∈ shnums) ∧
    (∀ s ∈ (allocate_buckets st shnums sz).2, s ∈ shnums) ∧
    (st.readonlyStorage = true → (allocate_buckets st shnums sz).2 = []) ∧
    (availSpace st < sz * shnums.length →
        (allocate_buckets st shnums sz).2 = []) ∧
    ((allocate_buckets st shnums sz).2 = [] ∨
        (allocate_buckets st shnums sz).2 = newCandidates st shnums) := by
  have halloc : (allocate_buckets st shnums sz).2 = [] ∨
      (allocate_buckets st shnums sz).2 = newCandidates st shnums := by
    unfold allocate_buckets
    by_cases h : allocAdmitted st shnums sz = true
    · right; simp [h]
    · left; simp [h]
  refine ⟨rfl, ?_, ?_, ?_, ?_, ?_, halloc⟩
  · intro s hs hs2
    have hfin : st.finalized.contains s = true :=
      (List.mem_filter.mp hs).2
    rcases halloc with h0 | h0
    · rw [h0] at hs2; exact absurd hs2 (List.not_mem_nil s)
    · rw [h0] at hs2
      have := (List.mem_filter.mp hs2).2
      rw [hfin] at this
      simp at this
  · intro s hs
    exact (List.mem_filter.mp hs).1
  · intro s hs
    rcases halloc with h0 | h0
    · rw [h0] at hs; exact absurd hs (List.not_mem_nil s)
    · rw [h0] at hs; exact (List.mem_filter.mp hs).1
  · intro hro
    unfold allocate_buckets allocAdmitted
    rw [hro]
    simp
  · intro hspace
    unfold allocate_buckets allocAdmitted
    have : decide (sz * ↑shnums.length ≤ availSpace st) = false := by
      simp only [decide_eq_false_iff_not]
      omega
    rw [this]
    simp

/-- Witness for C2: a read-only server with share 0 finalized, asked
for shares 0 and 1, reports `already_have = [0]` and allocates
nothing. -/
theorem allocate_buckets_disjoint_all_or_nothing_witness :
    (allocate_buckets ⟨[0], [], true, 1000, 0⟩ [0, 1] 100).1 =
        alreadyHaveShares ⟨[0], [], true, 1000, 0⟩ [0, 1] ∧
    (∀ s ∈ (allocate_buckets ⟨[0], [], true, 1000, 0⟩ [0, 1] 100).1,
        s ∉ (allocate_buckets ⟨[0], [], true, 1000, 0⟩ [0, 1] 100).2) ∧
    (∀ s ∈ (allocate_buckets ⟨[0], [], true, 1000, 0⟩ [0, 1] 100).1,
        s ∈ [0, 1]) ∧
    (∀ s ∈ (allocate_buckets ⟨[0], [], true, 1000, 0⟩ [0, 1] 100).2,
        s ∈ [0, 1]) ∧
    ((⟨[0], [], true, 1000, 0⟩ : AllocState).readonlyStorage = true →
        (allocate_buckets ⟨[0], [], true, 1000, 0⟩ [0, 1] 100).2 = []) ∧
    (availSpace ⟨[0], [], true, 1000, 0⟩ < 100 * ([0, 1] : List Nat).length →
        (allocate_buckets ⟨[0], [], true, 1000, 0⟩ [0, 1] 100).2 = []) ∧
    ((allocate_buckets ⟨[0], [], true, 1000, 0⟩ [0, 1] 100).2 = [] ∨
        (allocate_buckets ⟨[0], [], true, 1000, 0⟩ [0, 1] 100).2 =
          newCandidates ⟨[0], [], true, 1000, 0⟩ [0, 1]) :=
  allocate_buckets_disjoint_all_or_nothing ⟨[0], [], true, 1000, 0⟩ [0, 1] 100

/-- C3: with expiration enabled in `age` mode with override duration
`d` (all share types configured), one expirer visit removes every lease
last renewed more than `d` seconds ago, keeps every lease renewed
within the last `d` seconds, and deletes the share file iff zero leases
remain on it. -/
theorem expirer_age_mode_one_cycle
    (d now : Int) (sf : ShareF) :
    (∀ l ∈ sf.leases, d < now - leaseRenewalTime l →
        ∀ sf', expireShare ⟨true, .age d, [.immutable, .mutable]⟩ now sf =
            some sf' → l ∉ sf'.leases) ∧
    (∀ l ∈ sf.leases, now - leaseRenewalTime l < d →
        ∃ sf', expireShare ⟨true, .age d, [.immutable, .mutable]⟩ now sf =
            some sf' ∧ l ∈ sf'.leases) ∧
    (expireShare ⟨true, .age d, [.immutable, .mutable]⟩ now sf = none ↔
        (sf.leases.filter
          (fun l => !leaseIsExpired (.age d) now l)).isEmpty = true) := by
  have htype :
      ([ShareType.immutable, ShareType.mutable].contains sf.stype) = true := by
    cases sf.stype <;> decide
  have hshape : expireShare ⟨true, .age d, [.immutable, .mutable]⟩ now sf =
      (if (sf.leases.filter
            (fun l => !leaseIsExpired (.age d) now l)).isEmpty then none
       else some { sf with
          leases := sf.leases.filter
            (fun l => !leaseIsExpired (.age d) now l) }) := by
    unfold expireShare
    rw [htype]
    simp
  refine ⟨?_, ?_, ?_⟩
  · intro l hl hold sf' hsome hmem
    rw [hshape] at hsome
    by_cases hemp : (sf.leases.filter
        (fun l => !leaseIsExpired (.age d) now l)).isEmpty = true
    · rw [if_pos hemp] at hsome; exact Option.noConfusion hsome
    · rw [if_neg hemp] at hsome
      have hsf' := Option.some.inj hsome
      rw [← hsf'] at hmem
      have hkept := (List.mem_filter.mp hmem).2
      have hexp : leaseIsExpired (.age d) now l = true := by
        unfold leaseIsExpired
        simp only [decide_eq_true_eq]
        omega
      rw [hexp] at hkept
      simp at hkept
  · intro l hl hnew
    have hnotexp : leaseIsExpired (.age d) now l = false := by
      unfold leaseIsExpired
      simp only [decide_eq_false_iff_not]
      omega
    have hmem : l ∈ sf.leases.filter
        (fun l => !leaseIsExpired (.age d) now l) :=
      List.mem_filter.mpr ⟨hl, by rw [hnotexp]; rfl⟩
    have hemp : (sf.leases.filter
        (fun l => !leaseIsExpired (.age d) now l)).isEmpty = false := by
      rcases hfl : sf.leases.filter (fun l => !leaseIsExpired (.age d) now l)
        with _ | ⟨a, as⟩
      · rw [hfl] at hmem; exact absurd hmem (List.not_mem_nil l)
      · rfl
    rw [hshape, if_neg (by rw [hemp]; exact Bool.false_ne_true)]
    exact ⟨_, rfl, hmem⟩
  · rw [hshape]
    by_cases hemp : (sf.leases.filter
        (fun l => !leaseIsExpired (.age d) now l)).isEmpty = true
    · rw [if_pos hemp]
      exact ⟨fun _ => hemp, fun _ => rfl⟩
    · rw [if_neg hemp]
      exact ⟨fun h => Option.noConfusion h, fun h => absurd h hemp⟩

/-- Witness for C3: with `d = 2000`, a share holding one lease renewed
3000 seconds ago and one renewed just now keeps exactly the fresh
lease and is not deleted. -/
theorem expirer_age_mode_one_cycle_witness :
    (∀ l ∈ (⟨ShareType.immutable, 1000, none,
        [⟨0, 1, 1, 1000000 - 3000 + DAY31⟩,
         ⟨0, 2, 2, 1000000 + DAY31⟩]⟩ : ShareF).leases,
        (2000 : Int) < 1000000 - leaseRenewalTime l →
        ∀ sf', expireShare ⟨true, .age 2000, [.immutable, .mutable]⟩ 1000000
            ⟨ShareType.immutable, 1000, none,
              [⟨0, 1, 1, 1000000 - 3000 + DAY31⟩,
               ⟨0, 2, 2, 1000000 + DAY31⟩]⟩ = some sf' →
          l ∉ sf'.leases) ∧
    (∀ l ∈ (⟨ShareType.immutable, 1000, none,
        [⟨0, 1, 1, 1000000 - 3000 + DAY31⟩,
         ⟨0, 2, 2, 1000000 + DAY31⟩]⟩ : ShareF).leases,
        1000000 - leaseRenewalTime l < (2000 : Int) →
        ∃ sf', expireShare ⟨true, .age 2000, [.immutable, .mutable]⟩ 1000000
            ⟨ShareType.immutable, 1000, none,
              [⟨0, 1, 1, 1000000 - 3000 + DAY31⟩,
               ⟨0, 2, 2, 1000000 + DAY31⟩]⟩ = some sf' ∧
          l ∈ sf'.leases) ∧
    (expireShare ⟨true, .age 2000, [.immutable, .mutable]⟩ 1000000
        ⟨ShareType.immutable, 1000, none,
          [⟨0, 1, 1, 1000000 - 3000 + DAY31⟩,
           ⟨0, 2, 2, 1000000 + DAY31⟩]⟩ = none ↔
      ((⟨ShareType.immutable, 1000, none,
          [⟨0, 1, 1, 1000000 - 3000 + DAY31⟩,
           ⟨0, 2, 2, 1000000 + DAY31⟩]⟩ : ShareF).leases.filter
        (fun l => !leaseIsExpired (.age 2000) 1000000 l)).isEmpty = true) :=
  expirer_age_mode_one_cycle 2000 1000000
    ⟨ShareType.immutable, 1000, none,
      [⟨0, 1, 1, 1000000 - 3000 + DAY31⟩, ⟨0, 2, 2, 1000000 + DAY31⟩]⟩

/-- C4: a successful `add_lease` updates every share of the storage
index: a lease with an equal renew secret is renewed in place to
`now + 31 days` with the lease count unchanged and all other leases
untouched, otherwise a fresh record is appended; and on an SI with no
shares at all the call always returns silently without error, whatever
the available space. -/
theorem add_lease_renews_in_place_or_appends
    (now : Int) (rs cs : Nat) (avail : Int)
    (shares out : List (Nat × ShareF))
    (h : add_lease now rs cs avail shares = Except.ok out) :
    (shares = [] → out = []) ∧
    (∀ avail2 : Int, add_lease now rs cs avail2 [] = Except.ok []) ∧
    (out = shares.map (fun p =>
      (p.1, { p.2 with leases := add_or_renew_lease now rs cs p.2.leases }))) ∧
    (∀ leases : List LeaseInfo,
      (leases.any (fun l => l.renewSecret == rs) = true →
        (add_or_renew_lease now rs cs leases).length = leases.length ∧
        (∀ l ∈ add_or_renew_lease now rs cs leases,
          (l.renewSecret = rs ∧ l.expirationTime = now + DAY31) ∨
          (l.renewSecret ≠ rs ∧ l ∈ leases))) ∧
      (leases.any (fun l => l.renewSecret == rs) = false →
        add_or_renew_lease now rs cs leases =
          leases ++ [⟨0, rs, cs, now + DAY31⟩])) := by
  have hout : out = shares.map (fun p =>
      (p.1, { p.2 with leases := add_or_renew_lease now rs cs p.2.leases })) := by
    unfold add_lease at h
    split at h
    · exact Except.noConfusion h
    · exact (Except.ok.inj h).symm
  refine ⟨?_, fun _ => rfl, hout, ?_⟩
  · intro he
    rw [he] at hout
    simpa using hout
  · intro leases
    constructor
    · intro hany
      unfold add_or_renew_lease
      rw [hany]
      simp only [if_pos rfl]
      constructor
      · exact List.length_map leases _
      · intro l hl
        rcases List.mem_map.mp hl with ⟨x, hx, hfx⟩
        by_cases hxr : (x.renewSecret == rs) = true
        · left
          rw [← hfx, if_pos hxr]
          refine ⟨?_, rfl⟩
          show x.renewSecret = rs
          simpa using hxr
        · right
          rw [← hfx, if_neg hxr]
          refine ⟨?_, hx⟩
          intro hcontra
          exact hxr (by simp [hcontra])
    · intro hnone
      unfold add_or_renew_lease
      rw [hnone]
      simp

/-- Witness for C4: one share with a lease under renew secret 5 and one
with no such lease; `add_lease` with secret 5 succeeds, renews in place
on the first and appends on the second, and on an SI with no shares it
returns silently for every available space. -/
theorem add_lease_renews_in_place_or_appends_witness :
    ([((0 : Nat), (⟨ShareType.immutable, 10, none, [⟨0, 5, 6, 100⟩]⟩ : ShareF)),
      ((1 : Nat), (⟨ShareType.immutable, 10, none, [⟨0, 7, 8, 100⟩]⟩ : ShareF))] =
        ([] : List (Nat × ShareF)) →
      ([((0 : Nat), (⟨ShareType.immutable, 10, none,
            [⟨0, 5, 6, 50 + DAY31⟩]⟩ : ShareF)),
        ((1 : Nat), (⟨ShareType.immutable, 10, none,
            [⟨0, 7, 8, 100⟩, ⟨0, 5, 6, 50 + DAY31⟩]⟩ : ShareF))] :
          List (Nat × ShareF)) = []) ∧
    (∀ avail2 : Int, add_lease 50 5 6 avail2 [] = Except.ok []) ∧
    (([((0 : Nat), (⟨ShareType.immutable, 10, none,
          [⟨0, 5, 6, 50 + DAY31⟩]⟩ : ShareF)),
       ((1 : Nat), (⟨ShareType.immutable, 10, none,
          [⟨0, 7, 8, 100⟩, ⟨0, 5, 6, 50 + DAY31⟩]⟩ : ShareF))] :
        List (Nat × ShareF)) =
      [((0 : Nat), (⟨ShareType.immutable, 10, none, [⟨0, 5, 6, 100⟩]⟩ : ShareF)),
       ((1 : Nat), (⟨ShareType.immutable, 10, none, [⟨0, 7, 8, 100⟩]⟩ : ShareF))].map
        (fun p => (p.1,
          { p.2 with leases := add_or_renew_lease 50 5 6 p.2.leases }))) ∧
    (∀ leases : List LeaseInfo,
      (leases.any (fun l => l.renewSecret == 5) = true →
        (add_or_renew_lease 50 5 6 leases).length = leases.length ∧
        (∀ l ∈ add_or_renew_lease 50 5 6 leases,
          (l.renewSecret = 5 ∧ l.expirationTime = 50 + DAY31) ∨
          (l.renewSecret ≠ 5 ∧ l ∈ leases))) ∧
      (leases.any (fun l => l.renewSecret == 5) = false →
        add_or_renew_lease 50 5 6 leases =
          leases ++ [⟨0, 5, 6, 50 + DAY31⟩])) :=
  add_lease_renews_in_place_or_appends 50 5 6 1000
    [((0 : Nat), ⟨ShareType.immutable, 10, none, [⟨0, 5, 6, 100⟩]⟩),
     ((1 : Nat), ⟨ShareType.immutable, 10, none, [⟨0, 7, 8, 100⟩]⟩)]
    [((0 : Nat), ⟨ShareType.immutable, 10, none, [⟨0, 5, 6, 50 + DAY31⟩]⟩),
     ((1 : Nat), ⟨ShareType.immutable, 10, none,
        [⟨0, 7, 8, 100⟩, ⟨0, 5, 6, 50 + DAY31⟩]⟩)]
    rfl

/-- C5: the one-shot `migrate-crawler` command turns a legacy pickle
state file into the versioned JSON sibling and removes the pickle;
afterwards loading through the state serializer is a fixed point — the
serializer is a pure function of the on-disk file and
serialize-then-deserialize returns the state unchanged, so any two
loads (including through a freshly constructed serializer) agree. -/
theorem migrate_crawler_to_json_and_load_fixed_point
    (d : CrawlerDir) (p : PickleState) (h : d.pickleFile = some p) :
    (migrate_crawler d).pickleFile = none ∧
    (migrate_crawler d).jsonFile = some (storeState (upgradePickle p)) ∧
    serializerLoad (migrate_crawler d) = some (upgradePickle p) ∧
    (∀ s : CrawlerState, loadState (storeState s) = some s) := by
  have hround : ∀ s : CrawlerState, loadState (storeState s) = some s := by
    intro s
    obtain ⟨a, b, c, t, d', e⟩ := s
    cases a <;> cases b <;> cases c <;> cases d' <;> rfl
  have hm : migrate_crawler d =
      ⟨none, some (storeState (upgradePickle p))⟩ := by
    unfold migrate_crawler
    rw [h]
  refine ⟨by rw [hm], by rw [hm], ?_, hround⟩
  rw [hm]
  show (some (storeState (upgradePickle p))).bind loadState =
    some (upgradePickle p)
  exact hround _

/-- Witness for C5: migrating a directory holding a concrete legacy
pickle state removes the pickle, writes the JSON sibling, and every
load returns the converted state. -/
theorem migrate_crawler_to_json_and_load_fixed_point_witness :
    (migrate_crawler ⟨some ⟨none, some 3, some 2, 17, none, [("x", 4)]⟩,
        none⟩).pickleFile = none ∧
    (migrate_crawler ⟨some ⟨none, some 3, some 2, 17, none, [("x", 4)]⟩,
        none⟩).jsonFile =
      some (storeState (upgradePickle
        ⟨none, some 3, some 2, 17, none, [("x", 4)]⟩)) ∧
    serializerLoad (migrate_crawler
        ⟨some ⟨none, some 3, some 2, 17, none, [("x", 4)]⟩, none⟩) =
      some (upgradePickle ⟨none, some 3, some 2, 17, none, [("x", 4)]⟩) ∧
    (∀ s : CrawlerState, loadState (storeState s) = some s) :=
  migrate_crawler_to_json_and_load_fixed_point
    ⟨some ⟨none, some 3, some 2, 17, none, [("x", 4)]⟩, none⟩
    ⟨none, some 3, some 2, 17, none, [("x", 4)]⟩ rfl

/-- C6 counterexample: when the OS provides no free-space call the
server does report unknown available space, but it does not refuse to
allocate — admission checks pass and the status page reports that new
shares are accepted (as `test_status_no_disk_stats` asserts), so the
claim's "refuses to allocate new shares" is false at this input. -/
theorem no_free_space_call_does_not_refuse :
    get_available_space DiskStatsResult.noApi 0 = none ∧
    space_admits false DiskStatsResult.noApi 0 1000 = true ∧
    accepting_shares false DiskStatsResult.noApi 0 = true ∧
    ¬ (space_admits false DiskStatsResult.noApi 0 1000 = false) := by
  refine ⟨rfl, rfl, rfl, ?_⟩
  decide

/-- C6 (amended): with disk statistics available, a space-allocating
operation is admitted iff the bytes needed are at most
`max(free_for_nonroot − reserved_space, 0)`; when the OS provides no
free-space call the server reports unknown available space and admits
allocations without a space limit; when the free-space call fails the
server reports zero available space and refuses to allocate. -/
theorem space_admission_iff_fits_below_reserved
    (total freeRoot freeNonroot reserved b : Int) :
    (space_admits false (.ok total freeRoot freeNonroot) reserved b = true ↔
        b ≤ max (freeNonroot - reserved) 0) ∧
    (get_available_space (.ok total freeRoot freeNonroot) reserved =
        some (max (freeNonroot - reserved) 0)) ∧
    (get_available_space DiskStatsResult.noApi reserved = none ∧
        space_admits false DiskStatsResult.noApi reserved b = true) ∧
    (get_available_space DiskStatsResult.osError reserved = some 0 ∧
        (space_admits false DiskStatsResult.osError reserved b = true ↔
            b ≤ 0) ∧
        accepting_shares false DiskStatsResult.osError reserved = false) := by
  refine ⟨?_, rfl, ⟨rfl, rfl⟩, rfl, ?_, rfl⟩
  · unfold space_admits get_available_space
    simp
  · unfold space_admits get_available_space
    simp

/-- Witness for C6 (amended): at concrete disk figures, the admission
equivalences and reports hold. -/
theorem space_admission_iff_fits_below_reserved_witness :
    (space_admits false (.ok 5000 4000 3000) 1000 500 = true ↔
        (500 : Int) ≤ max (3000 - 1000) 0) ∧
    (get_available_space (.ok 5000 4000 3000) 1000 =
        some (max (3000 - 1000) 0)) ∧
    (get_available_space DiskStatsResult.noApi 1000 = none ∧
        space_admits false DiskStatsResult.noApi 1000 500 = true) ∧
    (get_available_space DiskStatsResult.osError 1000 = some 0 ∧
        (space_admits false DiskStatsResult.osError 1000 500 = true ↔
            (500 : Int) ≤ 0) ∧
        accepting_shares false DiskStatsResult.osError 1000 = false) :=
  space_admission_iff_fits_below_reserved 5000 4000 3000 1000 500

/-- C7: the expirer modifies or deletes only shares whose type is in
`expiration_sharetypes`: a share whose type is not configured is left
on disk with its full lease table intact, even when all of its leases
are expired. -/
theorem expirer_untouched_sharetype_frame
    (cfg : ExpirerConfig) (now : Int) (sf : ShareF)
    (h : cfg.sharetypes.contains sf.stype = false) :
    expireShare cfg now sf = some sf := by
  unfold expireShare
  rw [h]
  simp

/-- Witness for C7: with `expiration_sharetypes = (immutable,)` and a
mutable share whose only lease is long expired, one expirer visit
leaves the share and its lease table unchanged. -/
theorem expirer_untouched_sharetype_frame_witness :
    expireShare ⟨true, .cutoffDate 1000000, [ShareType.immutable]⟩ 2000000
      ⟨ShareType.mutable, 1000, none, [⟨0, 1, 1, 0⟩]⟩ =
    some ⟨ShareType.mutable, 1000, none, [⟨0, 1, 1, 0⟩]⟩ :=
  expirer_untouched_sharetype_frame
    ⟨true, .cutoffDate 1000000, [ShareType.immutable]⟩ 2000000
    ⟨ShareType.mutable, 1000, none, [⟨0, 1, 1, 0⟩]⟩ rfl

/-- Helper: one history append always leaves at most 10 entries. -/
theorem addHistoryEntry_length_le {α : Type} (h : List (Nat × α)) (c : Nat)
    (s : α) : (addHistoryEntry h c s).length ≤ 10 := by
  unfold addHistoryEntry
  by_cases hlen : 10 < (h ++ [(c, s)]).length
  · rw [if_pos hlen, List.length_drop]
    omega
  · rw [if_neg hlen]
    omega

/-- Helper: the history keys after `n` completed cycles are the last
(at most 10) cycle numbers. -/
theorem historyAfterCycles_keys (n : Nat) :
    (historyAfterCycles n).map Prod.fst = (List.range n).drop (n - 10) := by
  induction n with
  | zero => rfl
  | succ n ih =>
    have hstep : historyAfterCycles (n + 1) =
        addHistoryEntry (historyAfterCycles n) n () := by
      unfold historyAfterCycles
      rw [List.range_succ, List.foldl_append]
      rfl
    have hLlen : (historyAfterCycles n).length = n - (n - 10) := by
      have h1 : ((historyAfterCycles n).map Prod.fst).length =
          (historyAfterCycles n).length := List.length_map _ _
      rw [ih] at h1
      rw [← h1, List.length_drop, List.length_range]
    rw [hstep]
    unfold addHistoryEntry
    by_cases hc : 10 < ((historyAfterCycles n) ++ [(n, ())]).length
    · rw [if_pos hc]
      have hlen2 : ((historyAfterCycles n) ++ [(n, ())]).length =
          (historyAfterCycles n).length + 1 := by
        simp
      have hn10 : 10 ≤ n := by
        rw [hlen2, hLlen] at hc
        omega
      rw [List.map_drop, List.map_append, ih]
      have hdropamount : ((historyAfterCycles n) ++ [(n, ())]).length - 10
          = 1 := by
        rw [hlen2, hLlen]; omega
      rw [hdropamount]
      have hfstlen : ((List.range n).drop (n - 10)).length = 10 := by
        rw [List.length_drop, List.length_range]; omega
      rw [List.drop_append_of_le_length (by rw [hfstlen]; omega),
          List.drop_drop]
      have hmap1 : ([(n, ())] : List (Nat × Unit)).map Prod.fst = [n] := rfl
      rw [hmap1, List.range_succ,
          List.drop_append_of_le_length (by rw [List.length_range]; omega)]
      have harith : n - 10 + 1 = n + 1 - 10 := by omega
      rw [harith]
    · rw [if_neg hc]
      have hlen2 : ((historyAfterCycles n) ++ [(n, ())]).length =
          (historyAfterCycles n).length + 1 := by
        simp
      have hn10 : n ≤ 9 := by
        rw [hlen2, hLlen] at hc
        omega
      rw [List.map_append, ih]
      have h0 : n - 10 = 0 := by omega
      have h0' : n + 1 - 10 = 0 := by omega
      rw [h0, h0', List.drop_zero, List.drop_zero, List.range_succ]
      rfl

/-- C8: the persisted crawler cycle history holds at most 10 entries at
every point, those entries are exactly the most recently completed
cycles, and after completing cycles 0 through 15 the history keys are
the cycle numbers 6 through 15. -/
theorem crawler_history_capped_at_ten_most_recent :
    (∀ n : Nat, (historyAfterCycles n).length ≤ 10) ∧
    (∀ n : Nat, (historyAfterCycles n).map Prod.fst =
        (List.range n).drop (n - 10)) ∧
    ((historyAfterCycles 16).map Prod.fst =
        [6, 7, 8, 9, 10, 11, 12, 13, 14, 15]) := by
  refine ⟨?_, historyAfterCycles_keys, ?_⟩
  · intro n
    have h1 : ((historyAfterCycles n).map Prod.fst).length =
        (historyAfterCycles n).length := List.length_map _ _
    rw [historyAfterCycles_keys n, List.length_drop, List.length_range] at h1
    omega
  · rw [historyAfterCycles_keys 16]
    rfl

/-- C9: a storage server constructed with an expiration mode other
than `age` or `cutoff-date` fails with a `ValueError` at construction,
and a present-but-empty `tub.port` fails with a `ValueError` at
startup; in both cases no server is created (the result is an error,
not a value). -/
theorem invalid_config_rejected_at_startup
    (m : String) (h1 : m ≠ "age") (h2 : m ≠ "cutoff-date") :
    (∃ e, checkExpirationMode m = Except.error e) ∧
    (∃ e, checkTubPort (some "") = Except.error e) := by
  constructor
  · refine ⟨"GC mode '" ++ m ++ "' must be 'age' or 'cutoff-date'", ?_⟩
    unfold checkExpirationMode
    rw [if_neg (by rintro (ha | hb); exacts [h1 ha, h2 hb])]
  · exact ⟨"tub.port must not be empty", rfl⟩

/-- Witness for C9: the mode string `bogus` and an empty `tub.port`
are both rejected. -/
theorem invalid_config_rejected_at_startup_witness :
    (∃ e, checkExpirationMode "bogus" = Except.error e) ∧
    (∃ e, checkTubPort (some "") = Except.error e) :=
  invalid_config_rejected_at_startup "bogus" (by decide) (by decide)

/-- Helper: with no `st_blocks` anywhere, summed disk bytes fall back
to summed share-file sizes. -/
theorem sum_diskBytes_of_no_st_blocks {l : List ShareF}
    (h : ∀ sf ∈ l, sf.blocks = none) :
    (l.map shareDiskBytes).sum = (l.map ShareF.size).sum := by
  induction l with
  | nil => rfl
  | cons a as ih =>
    have ha : a.blocks = none := h a (List.mem_cons_self a as)
    have htail : ∀ sf ∈ as, sf.blocks = none := fun sf hsf =>
      h sf (List.mem_cons_of_mem a hsf)
    simp [shareDiskBytes, ha, ih htail]

/-- C10: when the platform's stat results lack `st_blocks`, the
expirer's space-recovered accounting reports every disk-bytes tally
equal to the corresponding share-bytes tally (actual, configured and
original), and the cycle still completes with full counts — under a
non-positive `age` override every share counts as configured-removable. -/
theorem no_st_blocks_diskbytes_equal_sharebytes
    (cfg : ExpirerConfig) (now : Int) (shares : List ShareF)
    (hb : ∀ sf ∈ shares, sf.blocks = none) :
    ((spaceRecovered cfg now shares).actualDiskbytes =
        (spaceRecovered cfg now shares).actualSharebytes) ∧
    ((spaceRecovered cfg now shares).configuredDiskbytes =
        (spaceRecovered cfg now shares).configuredSharebytes) ∧
    ((spaceRecovered cfg now shares).originalDiskbytes =
        (spaceRecovered cfg now shares).originalSharebytes) ∧
    (∀ dd : Int, cfg.mode = .age dd → dd ≤ 0 →
      (∀ sf ∈ shares, ∀ l ∈ sf.leases, leaseRenewalTime l ≤ now) →
      (spaceRecovered cfg now shares).configuredShares = shares.length) := by
  have hfilt : ∀ (p : ShareF → Bool),
      ∀ sf ∈ shares.filter p, sf.blocks = none :=
    fun p sf hsf => hb sf (List.mem_filter.mp hsf).1
  refine ⟨?_, ?_, ?_, ?_⟩
  · exact sum_diskBytes_of_no_st_blocks (hfilt _)
  · exact sum_diskBytes_of_no_st_blocks (hfilt _)
  · exact sum_diskBytes_of_no_st_blocks (hfilt _)
  · intro dd hmode hdneg hren
    show (shares.filter (shareRemovedUnder cfg.mode now)).length = shares.length
    have hall : ∀ sf ∈ shares, shareRemovedUnder cfg.mode now sf = true := by
      intro sf hsf
      unfold shareRemovedUnder
      rw [hmode]
      apply List.all_eq_true.mpr
      intro l hl
      show leaseIsExpired (.age dd) now l = true
      unfold leaseIsExpired
      simp only [decide_eq_true_eq]
      have := hren sf hsf l hl
      omega
    rw [List.filter_eq_self.mpr hall]

/-- Witness for C10: two shares without `st_blocks` under a negative
`age` override: all disk-bytes tallies equal the share-bytes tallies
and the configured count covers every share. -/
theorem no_st_blocks_diskbytes_equal_sharebytes_witness :
    ((spaceRecovered ⟨false, .age (-1000), [.immutable, .mutable]⟩ 100
        [⟨ShareType.immutable, 1000, none, [⟨0, 1, 1, 50⟩]⟩,
         ⟨ShareType.mutable, 2000, none, [⟨0, 2, 2, 60⟩]⟩]).actualDiskbytes =
      (spaceRecovered ⟨false, .age (-1000), [.immutable, .mutable]⟩ 100
        [⟨ShareType.immutable, 1000, none, [⟨0, 1, 1, 50⟩]⟩,
         ⟨ShareType.mutable, 2000, none, [⟨0, 2, 2, 60⟩]⟩]).actualSharebytes) ∧
    ((spaceRecovered ⟨false, .age (-1000), [.immutable, .mutable]⟩ 100
        [⟨ShareType.immutable, 1000, none, [⟨0, 1, 1, 50⟩]⟩,
         ⟨ShareType.mutable, 2000, none, [⟨0, 2, 2, 60⟩]⟩]).configuredDiskbytes =
      (spaceRecovered ⟨false, .age (-1000), [.immutable, .mutable]⟩ 100
        [⟨ShareType.immutable, 1000, none, [⟨0, 1, 1, 50⟩]⟩,
         ⟨ShareType.mutable, 2000, none, [⟨0, 2, 2, 60⟩]⟩]).configuredSharebytes) ∧
    ((spaceRecovered ⟨false, .age (-1000), [.immutable, .mutable]⟩ 100
        [⟨ShareType.immutable, 1000, none, [⟨0, 1, 1, 50⟩]⟩,
         ⟨ShareType.mutable, 2000, none, [⟨0, 2, 2, 60⟩]⟩]).originalDiskbytes =
      (spaceRecovered ⟨false, .age (-1000), [.immutable, .mutable]⟩ 100
        [⟨ShareType.immutable, 1000, none, [⟨0, 1, 1, 50⟩]⟩,
         ⟨ShareType.mutable, 2000, none, [⟨0, 2, 2, 60⟩]⟩]).originalSharebytes) ∧
    (∀ dd : Int,
      (⟨false, .age (-1000), [.immutable, .mutable]⟩ : ExpirerConfig).mode =
          .age dd →
      dd ≤ 0 →
      (∀ sf ∈ [(⟨ShareType.immutable, 1000, none, [⟨0, 1, 1, 50⟩]⟩ : ShareF),
               ⟨ShareType.mutable, 2000, none, [⟨0, 2, 2, 60⟩]⟩],
        ∀ l ∈ sf.leases, leaseRenewalTime l ≤ 100) →
      (spaceRecovered ⟨false, .age (-1000), [.immutable, .mutable]⟩ 100
        [⟨ShareType.immutable, 1000, none, [⟨0, 1, 1, 50⟩]⟩,
         ⟨ShareType.mutable, 2000, none, [⟨0, 2, 2, 60⟩]⟩]).configuredShares =
        ([(⟨ShareType.immutable, 1000, none, [⟨0, 1, 1, 50⟩]⟩ : ShareF),
          ⟨ShareType.mutable, 2000, none, [⟨0, 2, 2, 60⟩]⟩] :
            List ShareF).length) :=
  no_st_blocks_diskbytes_equal_sharebytes
    ⟨false, .age (-1000), [.immutable, .mutable]⟩ 100
    [⟨ShareType.immutable, 1000, none, [⟨0, 1, 1, 50⟩]⟩,
     ⟨ShareType.mutable, 2000, none, [⟨0, 2, 2, 60⟩]⟩]
    (by decide)

end Tahoe
